import Mathlib

/-
  Formal model of `src/td-core/enemy-manager.ts` (EnemyManager), the
  object pool and lifecycle controller for enemy units of a wave-based
  tower-defence game.

  The enemy unit slot (`EnemyUnitObject`, file enemy-entity.ts) and the
  collection classes (`List`, `Dictionary`, file utilities/collections.ts)
  are not part of the sampled sources; they are modelled from the
  specification at their interface boundary, as indicated by doc comments
  starting with "Modelled from the spec".  Everything on `EnemyManager`
  itself is translated directly from enemy-manager.ts.
-/

/-- Modelled from the spec: a Unit Slot (`EnemyUnitObject` of enemy-entity.ts,
outside the sampled sources).  `index` is stable and assigned at creation;
`isAlive` marks the slot as used; `type` is the enemy archetype the slot
currently visually represents; `wave` is set on assignment; `shape` is the
attached visual-model resource handle (`none` = no GLTFShape component
attached, `some t` = the model of archetype `t` from the resource cache);
`engine` is the slot's presence in the simulated world (SetEngineState);
`damages` records the damage amounts forwarded to the slot via TakeDamage
(damage resolution itself is owned by the slot and out of scope). -/
structure EnemyUnitObject where
  index : Nat
  isAlive : Bool
  type : Nat
  wave : Int
  shape : Option Nat
  engine : Bool
  damages : List Int
deriving Repr, DecidableEq

/-- State of the `EnemyManager` class (enemy-manager.ts, lines 11-44):
scan cursor `iterationIndex`, scan entry marker `iterationHalt`, capacity
`enemySizeMax`, in-use counter `enemySizeCur`, wave-remaining counter
`enemySizeRemaining`, the ordered slot collection `enemyList`, and the
number of registered enemy model archetypes `modelCount` (the size of
`enemyModelDict`, populated from `EnemyData` in the constructor).
The dictionary `enemyDict` is not modelled separately: per the spec the
index-keyed lookup is a pure derived view over the ordered sequence
(lookup by `i` always equals ordered-sequence position `i`, since indices
are assigned sequentially at creation). -/
structure EnemyManager where
  iterationIndex : Nat
  iterationHalt : Nat
  enemySizeMax : Nat
  enemySizeCur : Nat
  enemySizeRemaining : Nat
  enemyList : List EnemyUnitObject
  modelCount : Nat
deriving Repr, DecidableEq

/-- Modelled from the spec: `List.getItem` / `Dictionary.getItem` by slot
index.  The Slot Registry contract says lookup of an index that was never
created fails (OutOfRangeError); `none` stands for that failure. -/
def slotAt (slots : List EnemyUnitObject) (i : Nat) : Option EnemyUnitObject :=
  slots[i]?

/-- Modelled from the spec: lookup in `enemyModelDict` (the Resource Cache),
which was populated in the constructor with one model per `EnemyData` entry,
keyed by the entry's position.  A type that was never registered fails
(NotFoundError); the handle of archetype `t` is represented by `t` itself
(handles are opaque and in bijection with registered archetypes). -/
def modelDictGet (m : EnemyManager) (t : Nat) : Option Nat :=
  if t < m.modelCount then some t else none

/-- Constructor state of `EnemyManager` (lines 50-92): cursor and counters
zero, empty slot collection.  `maxSize` is the public field `enemySizeMax`
(source default 30); `models` is the number of `EnemyData` archetypes. -/
def mkPool (maxSize models : Nat) : EnemyManager :=
  ⟨0, 0, maxSize, 0, 0, [], models⟩

/-- Outcome of the free-slot scan of `GetEnemyUnit`: a free slot index was
found, or the pool is exhausted (the source returns `null`), or a slot
lookup failed out of range (`oob`), or the scan fuel ran out (`fuelOut` is
an artifact of the embedding; it is proved unreachable whenever the cursor
and halt marker are in range). -/
inductive ScanOut where
  | found (i : Nat)
  | exhausted
  | oob
  | fuelOut
deriving Repr, DecidableEq

/-- Cursor advance of the scan (lines 130-131 and 146-147 of the source):
increment, and wrap to 0 once the index reaches the collection size. -/
def advanceIdx (n c : Nat) : Nat :=
  if n ≤ c + 1 then 0 else c + 1

/-- Body of the `while(true)` loop of `GetEnemyUnit` (lines 134-148):
examine the slot under the cursor; return it if it is not alive; stop with
`null` after examining the entry index (`iterationHalt`); otherwise advance
the cursor and repeat.  `fuel` bounds the number of advances so that the
function is total; `GetEnemyUnit` passes the collection size, which is
proved sufficient.  The two fuel cases share the loop body verbatim; only
the self-call is cut off at fuel zero. -/
def scanLoop (slots : List EnemyUnitObject) (halt : Nat) :
    Nat → Nat → ScanOut × Nat
  | 0, cursor =>
    match slotAt slots cursor with
    | none => (ScanOut.oob, cursor)
    | some s =>
      if s.isAlive = false then (ScanOut.found cursor, cursor)
      else if cursor = halt then (ScanOut.exhausted, cursor)
      else (ScanOut.fuelOut, cursor)
  | f + 1, cursor =>
    match slotAt slots cursor with
    | none => (ScanOut.oob, cursor)
    | some s =>
      if s.isAlive = false then (ScanOut.found cursor, cursor)
      else if cursor = halt then (ScanOut.exhausted, cursor)
      else scanLoop slots halt f (advanceIdx slots.length cursor)

/-- The method `GetEnemyUnit` (lines 125-149): record the halt marker as
the current cursor, advance the cursor once, then scan.  The returned state
carries the final cursor position; on `found i` the source returns the slot
object at index `i`. -/
def GetEnemyUnit (m : EnemyManager) : ScanOut × EnemyManager :=
  let halt := m.iterationIndex
  let start := advanceIdx m.enemyList.length m.iterationIndex
  let r := scanLoop m.enemyList halt m.enemyList.length start
  (r.1, { m with iterationIndex := r.2, iterationHalt := halt })

/-- Modelled from the spec: `EnemyUnitObject.Initialize(type, wave)` — the
slot re-initializes its internal state with the requested type and wave,
`isAlive` becomes true, and the unit is placed in the engine. -/
def slotSpawn (s : EnemyUnitObject) (t : Nat) (w : Int) : EnemyUnitObject :=
  { s with type := t, wave := w, isAlive := true, engine := true }

/-- Result of `AssignEnemyUnit`: the returned slot index (`none` when the
pool was exhausted and the source returned `null`), the number of visual
resources detached (`removeComponent(GLTFShape)`) and attached
(`addComponent`), and the manager state after the call. -/
structure AssignResult where
  assigned : Option Nat
  detached : Nat
  attached : Nat
  state : EnemyManager
deriving Repr, DecidableEq

/-- The method `AssignEnemyUnit(type, wave)` (lines 154-191): take a slot
from `GetEnemyUnit` (propagating `null` on exhaustion); disable the slot's
engine presence; remove its GLTFShape when one is attached and its recorded
`type` differs from the requested one; attach the requested model from the
resource cache when no shape is attached; then re-initialize the slot and
increment `enemySizeCur`.  The outer `none` is a runtime failure (lookup
out of range, or a never-registered model type). -/
def AssignEnemyUnit (m : EnemyManager) (t : Nat) (w : Int) : Option AssignResult :=
  match GetEnemyUnit m with
  | (ScanOut.found i, m1) =>
    match slotAt m1.enemyList i with
    | none => none
    | some obj0 =>
      let obj1 : EnemyUnitObject := { obj0 with engine := false }
      let doDetach : Bool := obj1.shape.isSome && !(obj1.type = t)
      let det : Nat := if doDetach then 1 else 0
      let obj2 : EnemyUnitObject := if doDetach then { obj1 with shape := none } else obj1
      if obj2.shape.isNone then
        match modelDictGet m1 t with
        | none => none
        | some h =>
          let obj3 := slotSpawn { obj2 with shape := some h } t w
          some ⟨some i, det, 1,
            { m1 with enemyList := m1.enemyList.set i obj3,
                      enemySizeCur := m1.enemySizeCur + 1 }⟩
      else
        let obj3 := slotSpawn obj2 t w
        some ⟨some i, det, 0,
          { m1 with enemyList := m1.enemyList.set i obj3,
                    enemySizeCur := m1.enemySizeCur + 1 }⟩
  | (ScanOut.exhausted, m1) => some ⟨none, 0, 0, m1⟩
  | (ScanOut.oob, _) => none
  | (ScanOut.fuelOut, _) => none

/-- The method `ClearUnit(index)` (lines 212-219): mark the slot of the
given index not alive and remove it from the engine; every other field of
the slot, every other slot, and every manager field is left untouched.
The lookup fails out of range (`none`). -/
def ClearUnit (m : EnemyManager) (i : Nat) : Option EnemyManager :=
  match slotAt m.enemyList i with
  | none => none
  | some obj =>
    some { m with enemyList :=
      m.enemyList.set i { obj with isAlive := false, engine := false } }

/-- Slot-level effect of `ClearUnit`: not alive and removed from the
engine; every other field is untouched. -/
def clearSlot (s : EnemyUnitObject) : EnemyUnitObject :=
  { s with isAlive := false, engine := false }

/-- Loop of `ClearUnits` (lines 203-206): clear the given indices in order,
stopping on a failed lookup. -/
def clearIdx (m : EnemyManager) : List Nat → Option EnemyManager
  | [] => some m
  | i :: rest =>
    match ClearUnit m i with
    | none => none
    | some m2 => clearIdx m2 rest

/-- The method `ClearUnits` (lines 201-209): clear every index from 0 to
the collection size, then reset `enemySizeCur` and `enemySizeRemaining`. -/
def ClearUnits (m : EnemyManager) : Option EnemyManager :=
  match clearIdx m (List.range m.enemyList.length) with
  | none => none
  | some m2 => some { m2 with enemySizeCur := 0, enemySizeRemaining := 0 }

/-- The method `DamageUnit(index, damage)` (lines 194-198): look the slot
up by index and forward the damage amount to it (`TakeDamage`); the lookup
fails out of range. -/
def DamageUnit (m : EnemyManager) (i : Nat) (d : Int) : Option EnemyManager :=
  match slotAt m.enemyList i with
  | none => none
  | some obj =>
    some { m with enemyList :=
      m.enemyList.set i { obj with damages := obj.damages ++ [d] } }

/-- Modelled from the spec: the freshly constructed slot made by
`AddEnemyUnit` — no visual resource attached yet; `ClearUnits` during
`Initialize` forces the free/detached state, so the constructed slot is
taken as not alive and not in the engine; type and wave carry the neutral
value until the first assignment. -/
def mkSlot (i : Nat) : EnemyUnitObject :=
  ⟨i, false, 0, 0, none, false, []⟩

/-- The method `AddEnemyUnit` (lines 111-121): create a slot whose index is
the current collection size and append it to the collections. -/
def AddEnemyUnit (m : EnemyManager) : EnemyManager :=
  { m with enemyList := m.enemyList ++ [mkSlot m.enemyList.length] }

/-- Iterated `AddEnemyUnit`.  The pre-warm loop of `Initialize` is
`while (size < enemySizeMax) AddEnemyUnit()`; since every call grows the
collection by exactly one, the loop runs `enemySizeMax - size` times. -/
def addUnits : Nat → EnemyManager → EnemyManager
  | 0, m => m
  | k + 1, m => addUnits k (AddEnemyUnit m)

/-- The method `Initialize` (lines 95-108): pre-warm the collection up to
`enemySizeMax` slots, then disable every unit via `ClearUnits`. -/
def Initialize (m : EnemyManager) : Option EnemyManager :=
  ClearUnits (addUnits (m.enemySizeMax - m.enemyList.length) m)

/-- Number of slots currently marked alive. -/
def aliveCount : List EnemyUnitObject → Nat
  | [] => 0
  | s :: rest => (if s.isAlive then 1 else 0) + aliveCount rest

/-- Circular distance from `c` to `j` in a cycle of length `n`
(for `c, j < n`): the number of cursor advances needed to move from `c`
to `j`. -/
def circDist (c j n : Nat) : Nat :=
  if c ≤ j then j - c else j + n - c

/-- Predicate of the free-slot search: the slot at index `j` exists and is
not alive. -/
def isFreeAt (slots : List EnemyUnitObject) (j : Nat) : Bool :=
  match slots[j]? with
  | some s => !s.isAlive
  | none => false

/-- Indices in the order the circular scan examines them: `start`,
`start + 1`, ..., wrapping modulo `n`, `n` indices in all. -/
def specScanOrder (n start : Nat) : List Nat :=
  (List.range n).map fun k => (start + k) % n

/-- The free-slot search as claim C2 words it: advance the cursor modulo
capacity, record halt as that advanced cursor (the entry point of the
scan), return the first slot in circular order with `isAlive` false, and
return NONE once the cursor has come back to halt having examined every
slot exactly once.  First component: found index or NONE; second
component: the cursor after the call. -/
def findFreeSpecC2 (slots : List EnemyUnitObject) (cursor : Nat) : Option Nat × Nat :=
  let n := slots.length
  let start := (cursor + 1) % n
  match (specScanOrder n start).find? (fun j => isFreeAt slots j) with
  | some i => (some i, i)
  | none => (none, start)

/-- The free-slot search with the halt bookkeeping the code actually has:
identical scan (first free slot in circular order starting one past the
cursor, NONE after a full cycle), but the halt marker — and hence the
cursor after an exhausted scan — is the pre-advance cursor, the value the
cursor had at entry. -/
def findFreeSpecFixed (slots : List EnemyUnitObject) (cursor : Nat) : Option Nat × Nat :=
  let n := slots.length
  let start := (cursor + 1) % n
  match (specScanOrder n start).find? (fun j => isFreeAt slots j) with
  | some i => (some i, i)
  | none => (none, cursor)

/-- Operations of the pool lifecycle that claim C1 ranges over. -/
inductive PoolOp where
  | assign (t : Nat) (w : Int)
  | clearOne (i : Nat)
deriving Repr, DecidableEq

/-- Apply one pool operation, keeping only the resulting state. -/
def applyOp (m : EnemyManager) : PoolOp → Option EnemyManager
  | PoolOp.assign t w => Option.map AssignResult.state (AssignEnemyUnit m t w)
  | PoolOp.clearOne i => ClearUnit m i

/-- Run a sequence of pool operations; `none` once any operation fails at
runtime. -/
def runOps (m : EnemyManager) : List PoolOp → Option EnemyManager
  | [] => some m
  | op :: rest =>
    match applyOp m op with
    | none => none
    | some m2 => runOps m2 rest

/-- Run `k` calls of `AssignEnemyUnit type wave`, requiring every call to
return a slot; `none` if any call fails at runtime or returns NONE. -/
def runAssigns (t : Nat) (w : Int) : Nat → EnemyManager → Option EnemyManager
  | 0, m => some m
  | k + 1, m =>
    match AssignEnemyUnit m t w with
    | some ⟨some _, _, _, m2⟩ => runAssigns t w k m2
    | _ => none

/-- Occupancy pattern of the pool after `k` assignments into a freshly
initialized pool of capacity `N`: while `k < N` exactly the slots
`1, ..., k` are alive (the first scan starts at index 1); once `k = N`
every slot, index 0 included, is alive. -/
def c3Alive (N k j : Nat) : Prop :=
  if k < N then 1 ≤ j ∧ j ≤ k else True

/-- Scan outcome a free-slot search result corresponds to: a found index,
or exhaustion (the source's `null`). -/
def scanOutOfOption (o : Option Nat) : ScanOut :=
  match o with
  | some i => ScanOut.found i
  | none => ScanOut.exhausted

/-- Agreement of `GetEnemyUnit` with the corrected declarative search
`findFreeSpecFixed`: same outcome, same cursor after the call, the halt
marker recorded as the pre-advance cursor, and the slot collection
untouched. -/
def c2Spec (m : EnemyManager) : Prop :=
  (GetEnemyUnit m).1 =
    scanOutOfOption (findFreeSpecFixed m.enemyList m.iterationIndex).1 ∧
  (GetEnemyUnit m).2.iterationIndex =
    (findFreeSpecFixed m.enemyList m.iterationIndex).2 ∧
  (GetEnemyUnit m).2.iterationHalt = m.iterationIndex ∧
  (GetEnemyUnit m).2.enemyList = m.enemyList

/-- Test fixture: an alive slot of type 0 with its model attached. -/
def fxAlive (i : Nat) : EnemyUnitObject :=
  ⟨i, true, 0, 0, some 0, true, []⟩

/-- Test fixture: a dead slot of type 0 with its model still attached. -/
def fxDead (i : Nat) : EnemyUnitObject :=
  ⟨i, false, 0, 0, some 0, false, []⟩

/-- Test fixture: a capacity-2 pool with both slots alive, cursor and halt
marker at 0. -/
def fxPoolFull : EnemyManager :=
  ⟨0, 0, 2, 2, 0, [fxAlive 0, fxAlive 1], 1⟩

/-- Test fixture: a capacity-2 pool whose slot 0 is free and slot 1 alive,
cursor at 0. -/
def fxPoolMixed : EnemyManager :=
  ⟨0, 0, 2, 1, 0, [fxDead 0, fxAlive 1], 1⟩

/-- Test fixture: the pool `Initialize (mkPool 2 1)` produces — two cleared
slots, all counters zero. -/
def fxInit2 : EnemyManager :=
  ⟨0, 0, 2, 0, 0,
    [⟨0, false, 0, 0, none, false, []⟩, ⟨1, false, 0, 0, none, false, []⟩], 1⟩

/-- Test fixture: `fxInit2` after one assignment (slot 1) and a `ClearUnit`
of that slot: no slot is alive but the counter still reads one. -/
def fxTrace2 : EnemyManager :=
  ⟨1, 0, 2, 1, 0,
    [⟨0, false, 0, 0, none, false, []⟩, ⟨1, false, 0, 1, some 0, false, []⟩], 1⟩

/-- Test fixture: a freshly initialized capacity-1 pool with two registered
models. -/
def fxC5Pool : EnemyManager :=
  ⟨0, 0, 1, 0, 0, [⟨0, false, 0, 0, none, false, []⟩], 2⟩

/-- Test fixture: `fxC5Pool` after assigning type 0 at wave 1 and clearing
the slot. -/
def fxC5M2 : EnemyManager :=
  ⟨0, 0, 1, 1, 0, [⟨0, false, 0, 1, some 0, false, []⟩], 2⟩

/-- Test fixture: `fxC5M2` after re-assigning type 0 at wave 2 and clearing
the slot again. -/
def fxC5M4 : EnemyManager :=
  ⟨0, 0, 1, 2, 0, [⟨0, false, 0, 2, some 0, false, []⟩], 2⟩

/-- Test fixture: result of the first assignment on `fxC5Pool`: fresh slot,
one attach, no detach. -/
def fxC5R1 : AssignResult :=
  ⟨some 0, 0, 1, ⟨0, 0, 1, 1, 0, [⟨0, true, 0, 1, some 0, true, []⟩], 2⟩⟩

/-- Test fixture: result of re-assigning the cleared slot with the same
type: no detach, no attach. -/
def fxC5R2 : AssignResult :=
  ⟨some 0, 0, 0, ⟨0, 0, 1, 2, 0, [⟨0, true, 0, 2, some 0, true, []⟩], 2⟩⟩

/-- Test fixture: result of re-assigning the cleared slot with a different
type: one detach, one attach. -/
def fxC5R3 : AssignResult :=
  ⟨some 0, 1, 1, ⟨0, 0, 1, 3, 0, [⟨0, true, 1, 3, some 1, true, []⟩], 2⟩⟩

/-- Advancing stays below the collection size whenever the size is
positive. -/
lemma advanceIdx_lt {n c : Nat} (h : 0 < n) : advanceIdx n c < n := by
  unfold advanceIdx
  split <;> omega

/-- Advancing an in-range cursor is addition of one modulo the size. -/
lemma advanceIdx_eq_mod {n c : Nat} (h : c < n) : advanceIdx n c = (c + 1) % n := by
  unfold advanceIdx
  split
  · have he : c + 1 = n := by omega
    rw [he, Nat.mod_self]
  · rw [Nat.mod_eq_of_lt (by omega)]

/-- Circular distance from an index to itself is zero. -/
lemma circDist_self (c n : Nat) : circDist c c n = 0 := by
  simp [circDist]

/-- Circular distance zero forces equality of in-range indices. -/
lemma circDist_eq_zero {c j n : Nat} (hc : c < n) (_hj : j < n)
    (h : circDist c j n = 0) : j = c := by
  unfold circDist at h
  split at h <;> omega

/-- Circular distance of in-range indices is below the cycle length. -/
lemma circDist_lt {c j n : Nat} (hc : c < n) (hj : j < n) : circDist c j n < n := by
  unfold circDist
  split <;> omega

/-- Advancing the source index decreases the circular distance to any other
in-range index by one. -/
lemma circDist_advance {c j n : Nat} (hc : c < n) (hj : j < n) (hne : j ≠ c) :
    circDist (advanceIdx n c) j n + 1 = circDist c j n := by
  unfold advanceIdx circDist
  split <;> split <;> split <;> omega

/-- From the advanced cursor, the original cursor is the farthest index of
the cycle. -/
lemma circDist_advance_self {c n : Nat} (hc : c < n) :
    circDist (advanceIdx n c) c n = n - 1 := by
  unfold advanceIdx circDist
  split <;> split <;> omega

/-- Every in-range index other than the original cursor is strictly closer
to the advanced cursor than the original cursor is. -/
lemma circDist_advance_ne {c j n : Nat} (hc : c < n) (hj : j < n) (hne : j ≠ c) :
    circDist (advanceIdx n c) j n < n - 1 := by
  unfold advanceIdx circDist
  split <;> split <;> omega

/-- Walking the circular distance from `c` to `j` lands on `j`. -/
lemma circDist_recover {c j n : Nat} (hc : c < n) (hj : j < n) :
    (c + circDist c j n) % n = j := by
  unfold circDist
  split
  · have he : c + (j - c) = j := by omega
    rw [he, Nat.mod_eq_of_lt hj]
  · have he : c + (j + n - c) = j + n := by omega
    rw [he, Nat.add_mod_right, Nat.mod_eq_of_lt hj]

/-- The `q`-th index of the circular walk from `c` is at circular distance
`q`. -/
lemma circDist_index {c q n : Nat} (hc : c < n) (hq : q < n) :
    circDist c ((c + q) % n) n = q := by
  rcases Nat.lt_or_ge (c + q) n with hlt | hge
  · rw [Nat.mod_eq_of_lt hlt]
    unfold circDist
    split <;> omega
  · have h1 : (c + q) % n = c + q - n := by
      rw [Nat.mod_eq_sub_mod hge, Nat.mod_eq_of_lt (by omega)]
    rw [h1]
    unfold circDist
    split <;> omega

/-- A lookup that succeeds pins the index below the collection size. -/
lemma slotAt_lt {slots : List EnemyUnitObject} {i : Nat} {s : EnemyUnitObject}
    (h : slotAt slots i = some s) : i < slots.length := by
  by_contra hge
  unfold slotAt at h
  rw [List.getElem?_eq_none (by omega)] at h
  cases h

/-- In-range lookup returns the list element. -/
lemma slotAt_eq {slots : List EnemyUnitObject} {i : Nat} (h : i < slots.length) :
    slotAt slots i = some slots[i] :=
  List.getElem?_eq_getElem h

/-- Scan step: the lookup failed. -/
lemma scanLoop_none {slots : List EnemyUnitObject} {halt cursor : Nat}
    (hs : slotAt slots cursor = none) (fuel : Nat) :
    scanLoop slots halt fuel cursor = (ScanOut.oob, cursor) := by
  cases fuel with
  | zero => rw [scanLoop, hs]
  | succ f => rw [scanLoop, hs]

/-- Scan step: the slot under the cursor is free, so it is returned and the
cursor stays on it. -/
lemma scanLoop_free {slots : List EnemyUnitObject} {halt cursor : Nat}
    {s : EnemyUnitObject} (hs : slotAt slots cursor = some s)
    (hA : s.isAlive = false) (fuel : Nat) :
    scanLoop slots halt fuel cursor = (ScanOut.found cursor, cursor) := by
  cases fuel with
  | zero => rw [scanLoop, hs]; simp [hA]
  | succ f => rw [scanLoop, hs]; simp [hA]

/-- Scan step: the slot is alive and the cursor sits on the halt marker, so
the scan reports exhaustion. -/
lemma scanLoop_halts {slots : List EnemyUnitObject} {halt cursor : Nat}
    {s : EnemyUnitObject} (hs : slotAt slots cursor = some s)
    (hA : s.isAlive = true) (hH : cursor = halt) (fuel : Nat) :
    scanLoop slots halt fuel cursor = (ScanOut.exhausted, cursor) := by
  cases fuel with
  | zero => rw [scanLoop, hs]; simp [hA, hH]
  | succ f => rw [scanLoop, hs]; simp [hA, hH]

/-- Scan step: fuel ran out before the halt marker was reached. -/
lemma scanLoop_stuck {slots : List EnemyUnitObject} {halt cursor : Nat}
    {s : EnemyUnitObject} (hs : slotAt slots cursor = some s)
    (hA : s.isAlive = true) (hH : cursor ≠ halt) :
    scanLoop slots halt 0 cursor = (ScanOut.fuelOut, cursor) := by
  rw [scanLoop, hs]; simp [hA, hH]

/-- Scan step: the slot is alive and the cursor is not on the halt marker,
so the scan advances. -/
lemma scanLoop_step {slots : List EnemyUnitObject} {halt cursor : Nat}
    {s : EnemyUnitObject} (hs : slotAt slots cursor = some s)
    (hA : s.isAlive = true) (hH : cursor ≠ halt) (f : Nat) :
    scanLoop slots halt (f + 1) cursor =
      scanLoop slots halt f (advanceIdx slots.length cursor) := by
  rw [scanLoop, hs]; simp [hA, hH]

/-- A scan that reports `found i` stops with the cursor on `i`, and the
slot at `i` exists and is not alive. -/
lemma scanLoop_found (slots : List EnemyUnitObject) (halt : Nat) :
    ∀ fuel cursor i, (scanLoop slots halt fuel cursor).1 = ScanOut.found i →
      (scanLoop slots halt fuel cursor).2 = i ∧
      ∃ s, slotAt slots i = some s ∧ s.isAlive = false := by
  intro fuel
  induction fuel with
  | zero =>
    intro cursor i h
    cases hs : slotAt slots cursor with
    | none => rw [scanLoop_none hs] at h; simp at h
    | some s =>
      cases hAv : s.isAlive with
      | false =>
        rw [scanLoop_free hs hAv] at h ⊢
        have hci : cursor = i := by simpa using h
        subst hci
        exact ⟨rfl, s, hs, hAv⟩
      | true =>
        by_cases hH : cursor = halt
        · rw [scanLoop_halts hs hAv hH] at h; simp at h
        · rw [scanLoop_stuck hs hAv hH] at h; simp at h
  | succ f ih =>
    intro cursor i h
    cases hs : slotAt slots cursor with
    | none => rw [scanLoop_none hs] at h; simp at h
    | some s =>
      cases hAv : s.isAlive with
      | false =>
        rw [scanLoop_free hs hAv] at h ⊢
        have hci : cursor = i := by simpa using h
        subst hci
        exact ⟨rfl, s, hs, hAv⟩
      | true =>
        by_cases hH : cursor = halt
        · rw [scanLoop_halts hs hAv hH] at h; simp at h
        · rw [scanLoop_step hs hAv hH] at h ⊢
          exact ih (advanceIdx slots.length cursor) i h

/-- Every slot the scan stepped over before reporting `found i` is alive:
any in-range index strictly closer to the scan entry than `i` holds a
living slot. -/
lemma scanLoop_found_before (slots : List EnemyUnitObject) (halt : Nat) :
    ∀ fuel cursor i, cursor < slots.length → halt < slots.length →
      (scanLoop slots halt fuel cursor).1 = ScanOut.found i →
      ∀ j, j < slots.length →
        circDist cursor j slots.length < circDist cursor i slots.length →
        ∃ s, slotAt slots j = some s ∧ s.isAlive = true := by
  intro fuel
  induction fuel with
  | zero =>
    intro cursor i hcur hhalt h j hj hd
    cases hs : slotAt slots cursor with
    | none => rw [scanLoop_none hs] at h; simp at h
    | some s =>
      cases hAv : s.isAlive with
      | false =>
        rw [scanLoop_free hs hAv] at h
        have hci : cursor = i := by simpa using h
        subst hci
        rw [circDist_self] at hd
        omega
      | true =>
        by_cases hH : cursor = halt
        · rw [scanLoop_halts hs hAv hH] at h; simp at h
        · rw [scanLoop_stuck hs hAv hH] at h; simp at h
  | succ f ih =>
    intro cursor i hcur hhalt h j hj hd
    cases hs : slotAt slots cursor with
    | none => rw [scanLoop_none hs] at h; simp at h
    | some s =>
      cases hAv : s.isAlive with
      | false =>
        rw [scanLoop_free hs hAv] at h
        have hci : cursor = i := by simpa using h
        subst hci
        rw [circDist_self] at hd
        omega
      | true =>
        by_cases hH : cursor = halt
        · rw [scanLoop_halts hs hAv hH] at h; simp at h
        · rw [scanLoop_step hs hAv hH] at h
          obtain ⟨-, s2, hs2, hA2⟩ :=
            scanLoop_found slots halt f (advanceIdx slots.length cursor) i h
          have hine : i ≠ cursor := by
            intro e
            subst e
            rw [hs] at hs2
            cases hs2
            rw [hAv] at hA2
            cases hA2
          by_cases hjc : j = cursor
          · subst hjc
            exact ⟨s, hs, hAv⟩
          · have hn : 0 < slots.length := by omega
            have hi : i < slots.length := slotAt_lt hs2
            have e1 := circDist_advance hcur hj hjc
            have e2 := circDist_advance hcur hi hine
            exact ih (advanceIdx slots.length cursor) i (advanceIdx_lt hn) hhalt h
              j hj (by omega)

/-- A scan that reports exhaustion stops with the cursor on the halt
marker, and every slot between the scan entry and the halt marker
(inclusive) is alive. -/
lemma scanLoop_exhausted (slots : List EnemyUnitObject) (halt : Nat) :
    ∀ fuel cursor, cursor < slots.length → halt < slots.length →
      (scanLoop slots halt fuel cursor).1 = ScanOut.exhausted →
      (scanLoop slots halt fuel cursor).2 = halt ∧
      ∀ j, j < slots.length →
        circDist cursor j slots.length ≤ circDist cursor halt slots.length →
        ∃ s, slotAt slots j = some s ∧ s.isAlive = true := by
  intro fuel
  induction fuel with
  | zero =>
    intro cursor hcur hhalt h
    cases hs : slotAt slots cursor with
    | none => rw [scanLoop_none hs] at h; simp at h
    | some s =>
      cases hAv : s.isAlive with
      | false => rw [scanLoop_free hs hAv] at h; simp at h
      | true =>
        by_cases hH : cursor = halt
        · rw [scanLoop_halts hs hAv hH] at h ⊢
          refine ⟨hH, fun j hj hd => ?_⟩
          rw [← hH, circDist_self] at hd
          have hjc : j = cursor := circDist_eq_zero hcur hj (by omega)
          subst hjc
          exact ⟨s, hs, hAv⟩
        · rw [scanLoop_stuck hs hAv hH] at h; simp at h
  | succ f ih =>
    intro cursor hcur hhalt h
    cases hs : slotAt slots cursor with
    | none => rw [scanLoop_none hs] at h; simp at h
    | some s =>
      cases hAv : s.isAlive with
      | false => rw [scanLoop_free hs hAv] at h; simp at h
      | true =>
        by_cases hH : cursor = halt
        · rw [scanLoop_halts hs hAv hH] at h ⊢
          refine ⟨hH, fun j hj hd => ?_⟩
          rw [← hH, circDist_self] at hd
          have hjc : j = cursor := circDist_eq_zero hcur hj (by omega)
          subst hjc
          exact ⟨s, hs, hAv⟩
        · rw [scanLoop_step hs hAv hH] at h ⊢
          have hn : 0 < slots.length := by omega
          obtain ⟨hfin, hall⟩ :=
            ih (advanceIdx slots.length cursor) (advanceIdx_lt hn) hhalt h
          refine ⟨hfin, fun j hj hd => ?_⟩
          by_cases hjc : j = cursor
          · subst hjc
            exact ⟨s, hs, hAv⟩
          · have e1 := circDist_advance hcur hj hjc
            have e2 := circDist_advance hcur hhalt (Ne.symm hH)
            exact hall j hj (by omega)

/-- With in-range cursor and halt marker, and fuel at least the circular
distance between them, the scan reports a found slot or exhaustion — never
a failed lookup and never fuel exhaustion. -/
lemma scanLoop_total (slots : List EnemyUnitObject) (halt : Nat) :
    ∀ fuel cursor, cursor < slots.length → halt < slots.length →
      circDist cursor halt slots.length ≤ fuel →
      (∃ i, (scanLoop slots halt fuel cursor).1 = ScanOut.found i) ∨
      (scanLoop slots halt fuel cursor).1 = ScanOut.exhausted := by
  intro fuel
  induction fuel with
  | zero =>
    intro cursor hcur hhalt hfuel
    have hH : cursor = halt := (circDist_eq_zero hcur hhalt (by omega)).symm
    have hs := slotAt_eq hcur
    cases hAv : slots[cursor].isAlive with
    | false =>
      rw [scanLoop_free hs hAv]
      exact Or.inl ⟨cursor, rfl⟩
    | true =>
      rw [scanLoop_halts hs hAv hH]
      exact Or.inr rfl
  | succ f ih =>
    intro cursor hcur hhalt hfuel
    have hs := slotAt_eq hcur
    cases hAv : slots[cursor].isAlive with
    | false =>
      rw [scanLoop_free hs hAv]
      exact Or.inl ⟨cursor, rfl⟩
    | true =>
      by_cases hH : cursor = halt
      · rw [scanLoop_halts hs hAv hH]
        exact Or.inr rfl
      · rw [scanLoop_step hs hAv hH]
        have hn : 0 < slots.length := by omega
        have e2 := circDist_advance hcur hhalt (Ne.symm hH)
        exact ih (advanceIdx slots.length cursor) (advanceIdx_lt hn) hhalt (by omega)

/-- First projection of `GetEnemyUnit` is the scan outcome. -/
lemma getEnemyUnit_fst (m : EnemyManager) :
    (GetEnemyUnit m).1 =
      (scanLoop m.enemyList m.iterationIndex m.enemyList.length
        (advanceIdx m.enemyList.length m.iterationIndex)).1 := rfl

/-- Second projection of `GetEnemyUnit`: the state with the final scan
cursor and the recorded halt marker — which is the pre-advance cursor. -/
lemma getEnemyUnit_snd (m : EnemyManager) :
    (GetEnemyUnit m).2 =
      { m with
        iterationIndex :=
          (scanLoop m.enemyList m.iterationIndex m.enemyList.length
            (advanceIdx m.enemyList.length m.iterationIndex)).2,
        iterationHalt := m.iterationIndex } := rfl

/-- Fields of the manager other than the cursor pair are untouched by
`GetEnemyUnit`, and the recorded halt marker is the pre-advance cursor. -/
lemma getEnemyUnit_frame (m : EnemyManager) :
    (GetEnemyUnit m).2.enemyList = m.enemyList ∧
    (GetEnemyUnit m).2.enemySizeMax = m.enemySizeMax ∧
    (GetEnemyUnit m).2.enemySizeCur = m.enemySizeCur ∧
    (GetEnemyUnit m).2.enemySizeRemaining = m.enemySizeRemaining ∧
    (GetEnemyUnit m).2.modelCount = m.modelCount ∧
    (GetEnemyUnit m).2.iterationHalt = m.iterationIndex :=
  ⟨rfl, rfl, rfl, rfl, rfl, rfl⟩

/-- A `found i` outcome of `GetEnemyUnit` leaves the cursor on `i`, and the
slot at `i` exists and is not alive. -/
lemma getEnemyUnit_found {m : EnemyManager} {i : Nat}
    (h : (GetEnemyUnit m).1 = ScanOut.found i) :
    (GetEnemyUnit m).2.iterationIndex = i ∧
    ∃ s, slotAt m.enemyList i = some s ∧ s.isAlive = false := by
  rw [getEnemyUnit_fst] at h
  exact scanLoop_found m.enemyList m.iterationIndex m.enemyList.length
    (advanceIdx m.enemyList.length m.iterationIndex) i h

/-- An exhausted outcome of `GetEnemyUnit` from an in-range cursor leaves
the cursor unchanged and happens only when every slot is alive. -/
lemma getEnemyUnit_exhausted {m : EnemyManager}
    (hvalid : m.iterationIndex < m.enemyList.length)
    (h : (GetEnemyUnit m).1 = ScanOut.exhausted) :
    (GetEnemyUnit m).2.iterationIndex = m.iterationIndex ∧
    ∀ j, j < m.enemyList.length →
      ∃ s, slotAt m.enemyList j = some s ∧ s.isAlive = true := by
  rw [getEnemyUnit_fst] at h
  have hn : 0 < m.enemyList.length := by omega
  obtain ⟨hfin, hall⟩ :=
    scanLoop_exhausted m.enemyList m.iterationIndex m.enemyList.length
      (advanceIdx m.enemyList.length m.iterationIndex)
      (advanceIdx_lt hn) hvalid h
  refine ⟨hfin, fun j hj => ?_⟩
  apply hall j hj
  have e1 := circDist_advance_self (n := m.enemyList.length) hvalid
  have e2 := circDist_lt (advanceIdx_lt hn (c := m.iterationIndex)) hj
  omega

/-- From an in-range cursor, `GetEnemyUnit` reports a found slot or
exhaustion — it neither fails a lookup nor runs out of fuel. -/
lemma getEnemyUnit_total (m : EnemyManager)
    (hvalid : m.iterationIndex < m.enemyList.length) :
    (∃ i, (GetEnemyUnit m).1 = ScanOut.found i) ∨
    (GetEnemyUnit m).1 = ScanOut.exhausted := by
  rw [getEnemyUnit_fst]
  have hn : 0 < m.enemyList.length := by omega
  apply scanLoop_total m.enemyList m.iterationIndex m.enemyList.length
    (advanceIdx m.enemyList.length m.iterationIndex)
    (advanceIdx_lt hn) hvalid
  have e1 := circDist_advance_self (n := m.enemyList.length) hvalid
  omega

/-- A found slot index is in range. -/
lemma getEnemyUnit_found_lt {m : EnemyManager} {i : Nat}
    (h : (GetEnemyUnit m).1 = ScanOut.found i) : i < m.enemyList.length := by
  obtain ⟨-, s, hs, -⟩ := getEnemyUnit_found h
  exact slotAt_lt hs

/-- When `GetEnemyUnit` called with an in-range cursor returns the very
slot the cursor already sat on, every other slot is alive: the scan
started one past the cursor and stepped over all of them. -/
lemma getEnemyUnit_found_self {m : EnemyManager} {i : Nat}
    (hvalid : m.iterationIndex < m.enemyList.length)
    (h : (GetEnemyUnit m).1 = ScanOut.found i)
    (hself : i = m.iterationIndex) :
    ∀ j, j < m.enemyList.length → j ≠ i →
      ∃ s, slotAt m.enemyList j = some s ∧ s.isAlive = true := by
  subst hself
  rw [getEnemyUnit_fst] at h
  have hn : 0 < m.enemyList.length := by omega
  intro j hj hne
  apply scanLoop_found_before m.enemyList m.iterationIndex m.enemyList.length
    (advanceIdx m.enemyList.length m.iterationIndex) m.iterationIndex
    (advanceIdx_lt hn) hvalid h j hj
  have e1 := circDist_advance_self (n := m.enemyList.length) hvalid
  have e2 := circDist_advance_ne hvalid hj hne
  omega

/-- An `AssignEnemyUnit` call that completed with no slot assigned ran on
an exhausted pool: the scan reported exhaustion, no resource was detached
or attached, and the state is exactly the post-scan state. -/
lemma assign_none_char {m : EnemyManager} {t : Nat} {w : Int} {r : AssignResult}
    (h : AssignEnemyUnit m t w = some r) (ha : r.assigned = none) :
    (GetEnemyUnit m).1 = ScanOut.exhausted ∧
    r = ⟨none, 0, 0, (GetEnemyUnit m).2⟩ := by
  rcases hu : GetEnemyUnit m with ⟨out, st⟩
  have h1 : (GetEnemyUnit m).1 = out := by rw [hu]
  have h2 : (GetEnemyUnit m).2 = st := by rw [hu]
  unfold AssignEnemyUnit at h
  rw [hu] at h
  cases out with
  | oob => dsimp only at h; exact absurd h (by simp)
  | fuelOut => dsimp only at h; exact absurd h (by simp)
  | exhausted =>
    dsimp only at h
    injection h with h3
    subst h3
    exact ⟨rfl, rfl⟩
  | found j =>
    dsimp only at h
    cases hs : slotAt st.enemyList j with
    | none => rw [hs] at h; exact absurd h (by simp)
    | some s =>
      rw [hs] at h
      dsimp only at h
      split at h
      · dsimp only at h
        cases hmd : modelDictGet st t with
        | none => rw [hmd] at h; simp at h
        | some hdl =>
          rw [hmd] at h
          simp at h
          subst h
          simp at ha
      · split at h
        · cases hmd : modelDictGet st t with
          | none => rw [hmd] at h; simp at h
          | some hdl =>
            rw [hmd] at h
            simp at h
            subst h
            simp at ha
        · simp at h
          subst h
          simp at ha

/-- On an exhausted scan, `AssignEnemyUnit` completes with no assignment,
no detach, no attach, and the post-scan state. -/
lemma assign_of_exhausted {m : EnemyManager} (t : Nat) (w : Int)
    (hget : (GetEnemyUnit m).1 = ScanOut.exhausted) :
    AssignEnemyUnit m t w = some ⟨none, 0, 0, (GetEnemyUnit m).2⟩ := by
  have hpair : GetEnemyUnit m = (ScanOut.exhausted, (GetEnemyUnit m).2) := by
    rw [← hget]
  unfold AssignEnemyUnit
  rw [hpair]

/-- Full characterization of a successful assignment: the scan found slot
`i`, that slot was free; `enemySizeCur` is incremented, the cursor rests on
`i`, the halt marker is the pre-call cursor; the slot is re-initialized
with the requested type and wave, placed in the engine, marked alive; a
detach happens exactly when a shape of a different type was attached, and
an attach exactly when the slot does not keep a shape of the same type. -/
lemma assign_some_char {m : EnemyManager} {t : Nat} {w : Int} {r : AssignResult}
    {i : Nat} (h : AssignEnemyUnit m t w = some r) (ha : r.assigned = some i) :
    (GetEnemyUnit m).1 = ScanOut.found i ∧
    ∃ s, slotAt m.enemyList i = some s ∧ s.isAlive = false ∧
      r.detached = (if s.shape.isSome = true ∧ ¬ s.type = t then 1 else 0) ∧
      r.attached = (if s.shape.isSome = true ∧ s.type = t then 0 else 1) ∧
      r.state = { m with
        iterationIndex := i,
        iterationHalt := m.iterationIndex,
        enemySizeCur := m.enemySizeCur + 1,
        enemyList := m.enemyList.set i
          { s with type := t, wave := w, isAlive := true, engine := true,
                   shape := if s.shape.isSome = true ∧ s.type = t
                            then s.shape else some t } } := by
  rcases hu : GetEnemyUnit m with ⟨out, st⟩
  have h2 : (GetEnemyUnit m).2 = st := by rw [hu]
  unfold AssignEnemyUnit at h
  rw [hu] at h
  cases out with
  | oob => dsimp only at h; exact absurd h (by simp)
  | fuelOut => dsimp only at h; exact absurd h (by simp)
  | exhausted =>
    dsimp only at h
    injection h with h3
    subst h3
    simp at ha
  | found j =>
    have hg1 : (GetEnemyUnit m).1 = ScanOut.found j := by rw [hu]
    have hle : st.enemyList = m.enemyList := by
      rw [← h2]
      exact rfl
    obtain ⟨hidx, s0, hs0, hA0⟩ := getEnemyUnit_found hg1
    have hstEq : st = { m with iterationIndex := j,
                               iterationHalt := m.iterationIndex } := by
      have hsc : (scanLoop m.enemyList m.iterationIndex m.enemyList.length
          (advanceIdx m.enemyList.length m.iterationIndex)).2 = j := hidx
      rw [← h2, getEnemyUnit_snd, hsc]
    dsimp only at h
    cases hs : slotAt st.enemyList j with
    | none =>
      rw [hle] at hs
      rw [hs] at hs0
      cases hs0
    | some s =>
      have hsm : slotAt m.enemyList j = some s := by rw [← hle]; exact hs
      have hss : s0 = s := by
        rw [hsm] at hs0
        injection hs0 with he
        exact he.symm
      rw [hss] at hA0
      rw [hs] at h
      dsimp only at h
      split at h
      case isTrue hdd =>
        rw [Bool.and_eq_true, Bool.not_eq_true', decide_eq_false_iff_not] at hdd
        dsimp only at h
        rw [if_pos (show ((none : Option Nat)).isNone = true from rfl)] at h
        cases hmd : modelDictGet st t with
        | none => rw [hmd] at h; simp at h
        | some hdl =>
          have htv : hdl = t := by
            unfold modelDictGet at hmd
            split at hmd
            · injection hmd with he
              exact he.symm
            · cases hmd
          rw [htv] at hmd
          rw [hmd] at h
          dsimp only at h
          injection h with h3
          subst h3
          dsimp only at ha
          injection ha with hji
          subst hji
          refine ⟨rfl, s, hsm, hA0, ?_, ?_, ?_⟩
          · rw [if_pos ⟨hdd.1, hdd.2⟩]
          · rw [if_neg (fun hc => hdd.2 hc.2)]
          · rw [hstEq]
            unfold slotSpawn
            dsimp only
            rw [if_neg (fun hc => hdd.2 hc.2)]
      case isFalse hdd =>
        split at h
        case isTrue hN =>
          dsimp only at hN
          have hshn : s.shape = none := by
            cases hsv : s.shape with
            | none => rfl
            | some sh => rw [hsv] at hN; simp at hN
          cases hmd : modelDictGet st t with
          | none => rw [hmd] at h; simp at h
          | some hdl =>
            have htv : hdl = t := by
              unfold modelDictGet at hmd
              split at hmd
              · injection hmd with he
                exact he.symm
              · cases hmd
            rw [htv] at hmd
            rw [hmd] at h
            dsimp only at h
            injection h with h3
            subst h3
            dsimp only at ha
            injection ha with hji
            subst hji
            refine ⟨rfl, s, hsm, hA0, ?_, ?_, ?_⟩
            · rw [if_neg (fun hc => by rw [hshn] at hc; simp at hc)]
            · rw [if_neg (fun hc => by rw [hshn] at hc; simp at hc)]
            · rw [hstEq]
              unfold slotSpawn
              dsimp only
              rw [if_neg (fun hc => by rw [hshn] at hc; simp at hc)]
        case isFalse hN =>
          dsimp only at hN
          have hsh : s.shape.isSome = true := by
            cases hsv : s.shape with
            | none => rw [hsv] at hN; simp at hN
            | some sh => rfl
          have hty : s.type = t := by
            by_contra hne
            apply hdd
            rw [Bool.and_eq_true]
            refine ⟨hsh, ?_⟩
            simp [hne]
          injection h with h3
          subst h3
          dsimp only at ha
          injection ha with hji
          subst hji
          refine ⟨rfl, s, hsm, hA0, ?_, ?_, ?_⟩
          · rw [if_neg (fun hc => hc.2 hty)]
          · rw [if_pos ⟨hsh, hty⟩]
          · rw [hstEq]
            unfold slotSpawn
            dsimp only
            rw [if_pos ⟨hsh, hty⟩]

/-- When the scan finds slot `i` and either the requested type is
registered in the model cache or the slot already shows a shape of the
requested type, `AssignEnemyUnit` completes and assigns slot `i`. -/
lemma assign_of_found {m : EnemyManager} {t : Nat} {w : Int} {i : Nat}
    {s : EnemyUnitObject}
    (hget : (GetEnemyUnit m).1 = ScanOut.found i)
    (hs : slotAt m.enemyList i = some s)
    (hok : t < m.modelCount ∨ (s.shape.isSome = true ∧ s.type = t)) :
    ∃ r, AssignEnemyUnit m t w = some r ∧ r.assigned = some i := by
  have hpair : GetEnemyUnit m = (ScanOut.found i, (GetEnemyUnit m).2) := by
    rw [← hget]
  have hs2 : slotAt (GetEnemyUnit m).2.enemyList i = some s := hs
  unfold AssignEnemyUnit
  rw [hpair]
  dsimp only
  rw [hs2]
  dsimp only
  cases hsv : s.shape with
  | none =>
    have htc : t < m.modelCount := by
      rcases hok with htc | ⟨hsome, -⟩
      · exact htc
      · rw [hsv] at hsome; simp at hsome
    have hmd : modelDictGet (GetEnemyUnit m).2 t = some t := by
      unfold modelDictGet
      rw [if_pos (show t < (GetEnemyUnit m).2.modelCount from htc)]
    rw [hmd]
    exact ⟨_, rfl, rfl⟩
  | some sh =>
    by_cases hty : s.type = t
    · have hnd : ¬ (((some sh : Option Nat).isSome && !decide (s.type = t)) = true) := by
        simp [hty]
      simp only [if_neg hnd]
      exact ⟨_, rfl, rfl⟩
    · have htc : t < m.modelCount := by
        rcases hok with htc | ⟨-, hty2⟩
        · exact htc
        · exact absurd hty2 hty
      have hmd : modelDictGet (GetEnemyUnit m).2 t = some t := by
        unfold modelDictGet
        rw [if_pos (show t < (GetEnemyUnit m).2.modelCount from htc)]
      have hcd : (((some sh : Option Nat).isSome && !decide (s.type = t)) = true) := by
        simp [hty]
      simp only [if_pos hcd]
      rw [hmd]
      exact ⟨_, rfl, rfl⟩

/-- In-range `ClearUnit` updates exactly the indexed slot. -/
lemma clearUnit_char {m : EnemyManager} {i : Nat} {s : EnemyUnitObject}
    (hs : slotAt m.enemyList i = some s) :
    ClearUnit m i = some { m with enemyList := m.enemyList.set i (clearSlot s) } := by
  unfold ClearUnit
  rw [hs]
  exact rfl

/-- Out-of-range `ClearUnit` fails. -/
lemma clearUnit_oob {m : EnemyManager} {i : Nat}
    (hge : m.enemyList.length ≤ i) : ClearUnit m i = none := by
  unfold ClearUnit
  rw [show slotAt m.enemyList i = none from List.getElem?_eq_none hge]

/-- In-range `DamageUnit` extends exactly the indexed slot's forwarded
damage record with the given amount. -/
lemma damageUnit_char {m : EnemyManager} {i : Nat} {s : EnemyUnitObject} {d : Int}
    (hs : slotAt m.enemyList i = some s) :
    DamageUnit m i d =
      some { m with
             enemyList := m.enemyList.set i { s with damages := s.damages ++ [d] } } := by
  unfold DamageUnit
  rw [hs]

/-- Out-of-range `DamageUnit` fails. -/
lemma damageUnit_oob {m : EnemyManager} {i : Nat} {d : Int}
    (hge : m.enemyList.length ≤ i) : DamageUnit m i d = none := by
  unfold DamageUnit
  rw [show slotAt m.enemyList i = none from List.getElem?_eq_none hge]

/-- Setting an index to the element it already holds is a no-op. -/
lemma list_set_self : ∀ (l : List EnemyUnitObject) (i : Nat) (x : EnemyUnitObject),
    l[i]? = some x → l.set i x = l := by
  intro l
  induction l with
  | nil => intro i x hx; cases hx
  | cons a rest ih =>
    intro i x hx
    cases i with
    | zero =>
      rw [List.getElem?_cons_zero] at hx
      injection hx with he
      rw [he]
      rfl
    | succ i2 =>
      rw [List.getElem?_cons_succ] at hx
      have := ih i2 x hx
      simp [List.set, this]

/-- Setting right after a block keeps the block and replaces the head of
the tail. -/
lemma list_set_append_len (front : List EnemyUnitObject) (s x : EnemyUnitObject)
    (rest : List EnemyUnitObject) :
    (front ++ s :: rest).set front.length x = front ++ x :: rest := by
  induction front with
  | nil => rfl
  | cons a fr ih => simp [List.set, ih]

/-- Lookup right after a block returns the head of the tail. -/
lemma list_getElem?_append_len (front : List EnemyUnitObject) (s : EnemyUnitObject)
    (rest : List EnemyUnitObject) :
    (front ++ s :: rest)[front.length]? = some s := by
  induction front with
  | nil => simp
  | cons a fr ih => simpa using ih

/-- Counting alive slots after a set: the old occupant leaves the count,
the new one enters it. -/
lemma aliveCount_set : ∀ (l : List EnemyUnitObject) (i : Nat)
    (s x : EnemyUnitObject), l[i]? = some s →
    aliveCount (l.set i x) + (if s.isAlive then 1 else 0) =
      aliveCount l + (if x.isAlive then 1 else 0) := by
  intro l
  induction l with
  | nil => intro i s x hx; cases hx
  | cons a rest ih =>
    intro i s x hx
    cases i with
    | zero =>
      rw [List.getElem?_cons_zero] at hx
      injection hx with he
      rw [he]
      show (if x.isAlive then 1 else 0) + aliveCount rest + (if s.isAlive then 1 else 0) =
        (if s.isAlive then 1 else 0) + aliveCount rest + (if x.isAlive then 1 else 0)
      omega
    | succ i2 =>
      rw [List.getElem?_cons_succ] at hx
      have h2 := ih i2 s x hx
      show (if a.isAlive then 1 else 0) + aliveCount (rest.set i2 x) +
          (if s.isAlive then 1 else 0) =
        (if a.isAlive then 1 else 0) + aliveCount rest + (if x.isAlive then 1 else 0)
      omega

/-- A list of cleared slots has no alive slot. -/
lemma aliveCount_map_clearSlot : ∀ l : List EnemyUnitObject,
    aliveCount (l.map clearSlot) = 0 := by
  intro l
  induction l with
  | nil => rfl
  | cons a rest ih => simpa [aliveCount, clearSlot] using ih

/-- Core of the `ClearUnits` loop: clearing the indices of the suffix `l`
(which starts right after `front`) maps `clearSlot` over that suffix. -/
lemma clearIdx_core : ∀ (l front : List EnemyUnitObject) (m : EnemyManager),
    m.enemyList = front ++ l →
    clearIdx m (List.range' front.length l.length) =
      some { m with enemyList := front ++ l.map clearSlot } := by
  intro l
  induction l with
  | nil =>
    intro front m hm
    rw [List.append_nil] at hm
    simp only [List.length_nil, List.map_nil, List.append_nil]
    show some m = some { m with enemyList := front }
    rw [← hm]
  | cons s rest ih =>
    intro front m hm
    rw [List.length_cons, List.range'_succ]
    have hsl : slotAt m.enemyList front.length = some s := by
      unfold slotAt
      rw [hm]
      exact list_getElem?_append_len front s rest
    unfold clearIdx
    rw [clearUnit_char hsl]
    dsimp only
    have hm2 : ({ m with enemyList := m.enemyList.set front.length (clearSlot s)
        } : EnemyManager).enemyList = (front ++ [clearSlot s]) ++ rest := by
      show m.enemyList.set front.length (clearSlot s) = (front ++ [clearSlot s]) ++ rest
      rw [hm, list_set_append_len, List.append_assoc]
      rfl
    have hlen : front.length + 1 = (front ++ [clearSlot s]).length := by
      simp
    rw [hlen]
    have := ih (front ++ [clearSlot s])
      { m with enemyList := m.enemyList.set front.length (clearSlot s) } hm2
    rw [this]
    simp [List.append_assoc]

/-- Characterization of `ClearUnits`: every slot is cleared and both
counters are reset to zero; the cursor pair is untouched. -/
lemma clearUnits_char (m : EnemyManager) :
    ClearUnits m = some { m with enemyList := m.enemyList.map clearSlot,
                                 enemySizeCur := 0, enemySizeRemaining := 0 } := by
  unfold ClearUnits
  rw [List.range_eq_range']
  have h0 := clearIdx_core m.enemyList [] m (by rw [List.nil_append])
  rw [show ([] : List EnemyUnitObject).length = 0 from rfl] at h0
  rw [List.nil_append] at h0
  rw [h0]

/-- Characterization of the pre-warm loop: `addUnits k` appends `k` fresh
slots with sequential indices and changes nothing else. -/
lemma addUnits_char : ∀ (k : Nat) (m : EnemyManager),
    addUnits k m = { m with enemyList :=
      m.enemyList ++ (List.range' m.enemyList.length k).map mkSlot } := by
  intro k
  induction k with
  | zero =>
    intro m
    show m = { m with enemyList := m.enemyList ++ [] }
    rw [List.append_nil]
  | succ k2 ih =>
    intro m
    show addUnits k2 (AddEnemyUnit m) = _
    rw [ih (AddEnemyUnit m)]
    unfold AddEnemyUnit
    dsimp only
    rw [List.length_append, List.length_singleton]
    rw [List.range'_succ]
    simp [List.append_assoc]

/-- Characterization of `Initialize`: top the collection up to
`enemySizeMax` fresh slots, then clear every slot and zero both
counters. -/
lemma initialize_char (m : EnemyManager) :
    Initialize m = some { m with
      enemyList := (m.enemyList ++
        (List.range' m.enemyList.length (m.enemySizeMax - m.enemyList.length)).map
          mkSlot).map clearSlot,
      enemySizeCur := 0, enemySizeRemaining := 0 } := by
  unfold Initialize
  rw [addUnits_char]
  rw [clearUnits_char]

/-- A fresh pool initializes to `maxSize` cleared slots with sequential
indices, cursor and halt marker at zero. -/
lemma initialize_mkPool (maxSize models : Nat) :
    Initialize (mkPool maxSize models) =
      some ⟨0, 0, maxSize, 0, 0, (List.range' 0 maxSize).map mkSlot, models⟩ := by
  rw [initialize_char]
  unfold mkPool
  dsimp only
  rw [List.nil_append, List.map_map]
  rw [show clearSlot ∘ mkSlot = mkSlot from funext fun i => rfl]
  rw [List.length_nil, Nat.sub_zero]

/-- Every slot produced by `Initialize` is cleared, so a second
`Initialize` call is a no-op: the pre-warm loop finds the pool already at
capacity and adds nothing, and clearing already-cleared slots changes
nothing. -/
lemma initialize_idem {m m1 : EnemyManager} (h : Initialize m = some m1) :
    Initialize m1 = some m1 := by
  rw [initialize_char] at h
  injection h with h1
  subst h1
  rw [initialize_char]
  dsimp only
  rw [List.length_map, List.length_append, List.length_map, List.length_range']
  rw [show m.enemySizeMax - (m.enemyList.length +
        (m.enemySizeMax - m.enemyList.length)) = 0 from by omega]
  rw [show List.range' (m.enemyList.length +
        (m.enemySizeMax - m.enemyList.length)) 0 = [] from rfl]
  rw [List.map_nil, List.append_nil, List.map_map]
  rw [show clearSlot ∘ clearSlot = clearSlot from funext fun s => rfl]

/-- One pool operation preserves the invariant that `enemySizeCur` bounds
the number of alive slots from above: a successful assignment raises both
by one, a failed assignment changes neither, and `ClearUnit` can only
lower the alive count while leaving the counter untouched. -/
lemma applyOp_alive_le {m m2 : EnemyManager} {op : PoolOp}
    (hinv : aliveCount m.enemyList ≤ m.enemySizeCur)
    (h : applyOp m op = some m2) :
    aliveCount m2.enemyList ≤ m2.enemySizeCur := by
  cases op with
  | assign t w =>
    unfold applyOp at h
    dsimp only at h
    cases har : AssignEnemyUnit m t w with
    | none => rw [har] at h; cases h
    | some r =>
      rw [har] at h
      rw [Option.map_some'] at h
      injection h with h3
      cases has : r.assigned with
      | none =>
        obtain ⟨-, hr⟩ := assign_none_char har has
        rw [← h3, hr]
        exact hinv
      | some i =>
        obtain ⟨-, s, hsm, hA, -, -, hstate⟩ := assign_some_char har has
        rw [← h3, hstate]
        dsimp only
        have hset := aliveCount_set m.enemyList i s
          { s with type := t, wave := w, isAlive := true, engine := true,
                   shape := if s.shape.isSome = true ∧ s.type = t
                            then s.shape else some t } hsm
        rw [hA] at hset
        simp at hset
        omega
  | clearOne i =>
    unfold applyOp at h
    dsimp only at h
    cases hs : slotAt m.enemyList i with
    | none =>
      unfold ClearUnit at h
      rw [hs] at h
      dsimp only at h
      cases h
    | some s =>
      rw [clearUnit_char hs] at h
      injection h with h3
      rw [← h3]
      dsimp only
      have hset := aliveCount_set m.enemyList i s (clearSlot s) hs
      have hcf : (clearSlot s).isAlive = false := rfl
      rw [hcf] at hset
      by_cases hsa : s.isAlive = true
      · rw [hsa] at hset
        simp at hset
        omega
      · rw [Bool.not_eq_true] at hsa
        rw [hsa] at hset
        simp at hset
        omega

/-- Running any operation sequence preserves the alive-count bound. -/
lemma runOps_alive_le : ∀ (ops : List PoolOp) (m m2 : EnemyManager),
    aliveCount m.enemyList ≤ m.enemySizeCur → runOps m ops = some m2 →
    aliveCount m2.enemyList ≤ m2.enemySizeCur := by
  intro ops
  induction ops with
  | nil =>
    intro m m2 hinv h
    injection h with h3
    rw [← h3]
    exact hinv
  | cons op rest ih =>
    intro m m2 hinv h
    unfold runOps at h
    cases hop : applyOp m op with
    | none => rw [hop] at h; cases h
    | some m1 =>
      rw [hop] at h
      exact ih m1 m2 (applyOp_alive_le hinv hop) h

/-- Right after `Initialize`, no slot is alive and the counter is zero. -/
lemma initialize_alive_le {m m0 : EnemyManager} (h : Initialize m = some m0) :
    aliveCount m0.enemyList = 0 ∧ m0.enemySizeCur = 0 := by
  rw [initialize_char] at h
  injection h with h1
  rw [← h1]
  exact ⟨aliveCount_map_clearSlot _, rfl⟩

/-- When the slot one past the cursor is free, `GetEnemyUnit` returns it
immediately. -/
lemma getEnemyUnit_immediate {m : EnemyManager} {s : EnemyUnitObject}
    (hs : slotAt m.enemyList (advanceIdx m.enemyList.length m.iterationIndex) = some s)
    (hA : s.isAlive = false) :
    (GetEnemyUnit m).1 =
      ScanOut.found (advanceIdx m.enemyList.length m.iterationIndex) := by
  rw [getEnemyUnit_fst]
  rw [scanLoop_free hs hA]

/-- When every slot is alive and the cursor is in range, `GetEnemyUnit`
reports exhaustion. -/
lemma getEnemyUnit_all_alive {m : EnemyManager}
    (hvalid : m.iterationIndex < m.enemyList.length)
    (hall : ∀ j, j < m.enemyList.length →
      ∃ s, slotAt m.enemyList j = some s ∧ s.isAlive = true) :
    (GetEnemyUnit m).1 = ScanOut.exhausted := by
  rcases getEnemyUnit_total m hvalid with ⟨i, hf⟩ | hex
  · obtain ⟨-, s, hs, hA⟩ := getEnemyUnit_found hf
    obtain ⟨s2, hs2, hA2⟩ := hall i (slotAt_lt hs)
    rw [hs] at hs2
    injection hs2 with he
    rw [← he] at hA2
    rw [hA2] at hA
    cases hA
  · exact hex

/-- The slot the next scan takes is not occupied yet. -/
lemma c3Alive_not_next {N k : Nat} (hk : k < N) :
    ¬ c3Alive N k (advanceIdx N k) := by
  unfold c3Alive advanceIdx
  split_ifs <;> omega

/-- The slot taken by assignment `k + 1` becomes occupied. -/
lemma c3Alive_next {N k : Nat} (_hk : k < N) :
    c3Alive N (k + 1) (advanceIdx N k) := by
  unfold c3Alive advanceIdx
  split_ifs
  all_goals first | exact True.intro | omega

/-- Slots other than the one just taken keep their occupancy status. -/
lemma c3Alive_step {N k j : Nat} (hk : k < N) (hj : j < N)
    (hne : j ≠ advanceIdx N k) :
    (c3Alive N k j ↔ c3Alive N (k + 1) j) := by
  unfold c3Alive
  unfold advanceIdx at hne
  split_ifs at hne ⊢ <;>
    (try simp only [iff_true, true_iff]) <;>
    first | exact True.intro | omega

/-- Element lookup in an arithmetic index range. -/
lemma range'_getElem? : ∀ (n a j : Nat), j < n →
    (List.range' a n)[j]? = some (a + j) := by
  intro n
  induction n with
  | zero => intro a j h; omega
  | succ n2 ih =>
    intro a j h
    rw [List.range'_succ]
    cases j with
    | zero => simp
    | succ j2 =>
      rw [List.getElem?_cons_succ]
      rw [ih (a + 1) j2 (by omega)]
      congr 1
      omega

/-- Fresh slots in the initialized list. -/
lemma slotAt_map_mkSlot {N j : Nat} (h : j < N) :
    slotAt ((List.range' 0 N).map mkSlot) j = some (mkSlot j) := by
  unfold slotAt
  rw [List.getElem?_map]
  rw [range'_getElem? N 0 j h]
  simp

/-- Filling run: starting from a capacity-`N` pool whose occupancy matches
`c3Alive N k` and whose cursor is at `k % N`, any `cnt ≤ N - k` further
assignments of a registered type all succeed, and the occupancy then
matches `c3Alive N (k + cnt)` with the cursor at `(k + cnt) % N`. -/
lemma runAssigns_fill (N t : Nat) (w : Int) (hN : 0 < N) :
    ∀ (cnt k : Nat) (m : EnemyManager),
    m.enemyList.length = N →
    m.iterationIndex = k % N →
    t < m.modelCount →
    (∀ j, j < N → ∃ s, slotAt m.enemyList j = some s ∧
        (s.isAlive = true ↔ c3Alive N k j)) →
    k + cnt ≤ N →
    ∃ m2, runAssigns t w cnt m = some m2 ∧
      m2.enemyList.length = N ∧
      m2.iterationIndex = (k + cnt) % N ∧
      t < m2.modelCount ∧
      (∀ j, j < N → ∃ s, slotAt m2.enemyList j = some s ∧
        (s.isAlive = true ↔ c3Alive N (k + cnt) j)) := by
  intro cnt
  induction cnt with
  | zero =>
    intro k m h1 h2 h3 h4 h5
    exact ⟨m, rfl, h1, h2, h3, h4⟩
  | succ c ih =>
    intro k m h1 h2 h3 h4 h5
    have hkN : k < N := by omega
    have hkm : k % N = k := Nat.mod_eq_of_lt hkN
    obtain ⟨s, hs, hiff⟩ := h4 (advanceIdx N k) (advanceIdx_lt hN)
    have hAf : s.isAlive = false := by
      cases hb : s.isAlive with
      | false => rfl
      | true => exact absurd (hiff.mp hb) (c3Alive_not_next hkN)
    have hidx : advanceIdx m.enemyList.length m.iterationIndex = advanceIdx N k := by
      rw [h1, h2, hkm]
    have hs2 : slotAt m.enemyList (advanceIdx m.enemyList.length m.iterationIndex)
        = some s := by
      rw [hidx]
      exact hs
    have hgf := getEnemyUnit_immediate hs2 hAf
    obtain ⟨r, har, has⟩ := assign_of_found (w := w) hgf hs2 (Or.inl h3)
    obtain ⟨-, s3, hs3, -, -, -, hstate⟩ := assign_some_char har has
    have hs3s : s3 = s := by
      rw [hs2] at hs3
      injection hs3 with he
      exact he.symm
    subst hs3s
    rcases r with ⟨ra, rd, rt, rst⟩
    dsimp only at has hstate
    subst has
    subst hstate
    unfold runAssigns
    rw [har]
    dsimp only
    set post : EnemyUnitObject :=
      ⟨s3.index, true, t, w,
        (if s3.shape.isSome = true ∧ s3.type = t then s3.shape else some t),
        true, s3.damages⟩ with hpost
    have hpA : post.isAlive = true := by rw [hpost]
    have hlen2 : (m.enemyList.set
        (advanceIdx m.enemyList.length m.iterationIndex) post).length = N := by
      rw [List.length_set, h1]
    have hinv2 : ∀ j, j < N →
        ∃ s2, slotAt (m.enemyList.set
            (advanceIdx m.enemyList.length m.iterationIndex) post) j = some s2 ∧
          (s2.isAlive = true ↔ c3Alive N (k + 1) j) := by
      intro j hj
      by_cases hja : j = advanceIdx N k
      · subst hja
        refine ⟨post, ?_, ?_⟩
        · unfold slotAt
          rw [hidx]
          exact List.getElem?_set_eq_of_lt _ (by rw [h1]; exact advanceIdx_lt hN)
        · rw [hpA]
          constructor
          · intro hx
            exact c3Alive_next hkN
          · intro hx
            rfl
      · obtain ⟨s2, hs2b, hiff2⟩ := h4 j hj
        refine ⟨s2, ?_, ?_⟩
        · unfold slotAt
          rw [hidx]
          unfold slotAt at hs2b
          rw [List.getElem?_set_ne (fun he => hja he.symm)]
          exact hs2b
        · rw [hiff2]
          exact c3Alive_step hkN hj hja
    have hstep := ih (k + 1)
      { m with
        iterationIndex := advanceIdx m.enemyList.length m.iterationIndex,
        iterationHalt := m.iterationIndex,
        enemySizeCur := m.enemySizeCur + 1,
        enemyList := m.enemyList.set
          (advanceIdx m.enemyList.length m.iterationIndex) post }
      hlen2
      (by
        show advanceIdx m.enemyList.length m.iterationIndex = (k + 1) % N
        rw [hidx]
        exact advanceIdx_eq_mod hkN)
      h3 hinv2 (by omega)
    obtain ⟨m2, hrun, hb1, hb2, hb3, hb4⟩ := hstep
    refine ⟨m2, hrun, hb1, ?_, hb3, ?_⟩
    · rw [hb2]
      congr 1
      omega
    · rw [show k + (c + 1) = k + 1 + c from by omega]
      exact hb4

/-- First-match characterization of `List.find?`: an element at position `k`
satisfying the predicate, with every earlier position failing it, is the
find result. -/
lemma find?_at_first : ∀ (L : List Nat) (p : Nat → Bool) (k i : Nat),
    L[k]? = some i → p i = true →
    (∀ q x, q < k → L[q]? = some x → p x = false) →
    L.find? p = some i := by
  intro L
  induction L with
  | nil => intro p k i hk; cases hk
  | cons a rest ih =>
    intro p k i hk hp hbefore
    cases k with
    | zero =>
      rw [List.getElem?_cons_zero] at hk
      injection hk with he
      subst he
      rw [List.find?_cons_of_pos _ hp]
    | succ k2 =>
      rw [List.getElem?_cons_succ] at hk
      have ha : p a = false :=
        hbefore 0 a (Nat.succ_pos k2) (by rw [List.getElem?_cons_zero])
      rw [List.find?_cons_of_neg _ (by rw [ha]; exact Bool.false_ne_true)]
      exact ih p k2 i hk hp
        (fun q x hq hx =>
          hbefore (q + 1) x (by omega) (by rw [List.getElem?_cons_succ]; exact hx))

/-- The `k`-th index the circular scan order examines. -/
lemma specScanOrder_getElem? {n start k : Nat} (hk : k < n) :
    (specScanOrder n start)[k]? = some ((start + k) % n) := by
  unfold specScanOrder
  rw [List.getElem?_map, List.getElem?_range hk]
  rfl

/-- Every index of the circular scan order is in range. -/
lemma specScanOrder_mem {n start x : Nat} (hn : 0 < n)
    (hx : x ∈ specScanOrder n start) : x < n := by
  unfold specScanOrder at hx
  rw [List.mem_map] at hx
  obtain ⟨k, -, hk⟩ := hx
  rw [← hk]
  exact Nat.mod_lt _ hn

/-- C2 (amended): `GetEnemyUnit` implements the circular first-free-slot
search — advance the cursor modulo capacity, return the first slot in
circular order with `isAlive` false, report NONE after examining every slot
exactly once — but the halt marker it records, and hence the cursor after an
exhausted scan, is the PRE-advance cursor (the entry cursor), not the
advanced cursor the claim describes: for every manager state with an
in-range cursor, the call agrees with the declarative search
`findFreeSpecFixed` on outcome and final cursor, records the pre-advance
cursor as halt, and leaves the slot collection untouched. -/
theorem C2_theorem (m : EnemyManager)
    (hvalid : m.iterationIndex < m.enemyList.length) : c2Spec m := by
  have hn0 : 0 < m.enemyList.length := by omega
  have hstart : advanceIdx m.enemyList.length m.iterationIndex =
      (m.iterationIndex + 1) % m.enemyList.length := advanceIdx_eq_mod hvalid
  have hsl : advanceIdx m.enemyList.length m.iterationIndex <
      m.enemyList.length := advanceIdx_lt hn0
  rcases getEnemyUnit_total m hvalid with ⟨i, hf⟩ | hex
  · obtain ⟨hidx, s, hs, hA⟩ := getEnemyUnit_found hf
    have hi : i < m.enemyList.length := slotAt_lt hs
    have hkn : circDist (advanceIdx m.enemyList.length m.iterationIndex) i
        m.enemyList.length < m.enemyList.length := circDist_lt hsl hi
    have hfScan := hf
    rw [getEnemyUnit_fst] at hfScan
    have hfind : (specScanOrder m.enemyList.length
        ((m.iterationIndex + 1) % m.enemyList.length)).find?
        (fun j => isFreeAt m.enemyList j) = some i := by
      rw [← hstart]
      apply find?_at_first _ _
        (circDist (advanceIdx m.enemyList.length m.iterationIndex) i
          m.enemyList.length) i
      · rw [specScanOrder_getElem? hkn, circDist_recover hsl hi]
      · show isFreeAt m.enemyList i = true
        have hs2 := hs
        unfold slotAt at hs2
        unfold isFreeAt
        rw [hs2]
        dsimp only
        rw [hA]
        rfl
      · intro q x hq hx
        have hqn : q < m.enemyList.length := lt_trans hq hkn
        rw [specScanOrder_getElem? hqn] at hx
        injection hx with he
        subst he
        have hxlt : (advanceIdx m.enemyList.length m.iterationIndex + q) %
            m.enemyList.length < m.enemyList.length := Nat.mod_lt _ hn0
        have hd : circDist (advanceIdx m.enemyList.length m.iterationIndex)
            ((advanceIdx m.enemyList.length m.iterationIndex + q) %
              m.enemyList.length) m.enemyList.length = q :=
          circDist_index hsl hqn
        obtain ⟨s2, hs2, hA2⟩ :=
          scanLoop_found_before m.enemyList m.iterationIndex
            m.enemyList.length
            (advanceIdx m.enemyList.length m.iterationIndex) i
            hsl hvalid hfScan _ hxlt (by rw [hd]; exact hq)
        unfold slotAt at hs2
        show isFreeAt m.enemyList _ = false
        unfold isFreeAt
        rw [hs2]
        dsimp only
        rw [hA2]
        rfl
    have hspec : findFreeSpecFixed m.enemyList m.iterationIndex = (some i, i) := by
      unfold findFreeSpecFixed
      dsimp only
      rw [hfind]
    exact ⟨by rw [hf, hspec]; exact rfl, by rw [hidx, hspec], rfl, rfl⟩
  · obtain ⟨hidx, hall⟩ := getEnemyUnit_exhausted hvalid hex
    have hfind : (specScanOrder m.enemyList.length
        ((m.iterationIndex + 1) % m.enemyList.length)).find?
        (fun j => isFreeAt m.enemyList j) = none := by
      rw [List.find?_eq_none]
      intro x hx
      have hxlt : x < m.enemyList.length := specScanOrder_mem hn0 hx
      obtain ⟨s, hs, hA⟩ := hall x hxlt
      intro hpx
      unfold slotAt at hs
      unfold isFreeAt at hpx
      rw [hs] at hpx
      dsimp only at hpx
      rw [hA] at hpx
      simp at hpx
    have hspec : findFreeSpecFixed m.enemyList m.iterationIndex =
        (none, m.iterationIndex) := by
      unfold findFreeSpecFixed
      dsimp only
      rw [hfind]
    exact ⟨by rw [hex, hspec]; exact rfl, by rw [hidx, hspec], rfl, rfl⟩

/-- The slot a successful assignment wrote: it carries the requested type
and has a visual shape attached. -/
lemma assign_slot_after {m : EnemyManager} {t : Nat} {w : Int} {r : AssignResult}
    {i : Nat} (h : AssignEnemyUnit m t w = some r) (ha : r.assigned = some i) :
    ∃ p, slotAt r.state.enemyList i = some p ∧
      p.shape.isSome = true ∧ p.type = t := by
  obtain ⟨-, s, hs, -, -, -, hstate⟩ := assign_some_char h ha
  have hi : i < m.enemyList.length := slotAt_lt hs
  refine ⟨{ s with type := t, wave := w, isAlive := true, engine := true, shape := if s.shape.isSome = true ∧ s.type = t then s.shape else some t }, ?_, ?_, rfl⟩
  · rw [hstate]
    dsimp only
    unfold slotAt
    exact List.getElem?_set_eq_of_lt _ hi
  · dsimp only
    split_ifs with hc
    · exact hc.1
    · rfl

/-- The slot `ClearUnit` wrote: the type and the attached shape survive, the
slot is dead. -/
lemma clear_slot_after {m m2 : EnemyManager} {i : Nat} {p : EnemyUnitObject}
    (hp : slotAt m.enemyList i = some p) (h : ClearUnit m i = some m2) :
    ∃ q, slotAt m2.enemyList i = some q ∧ q.shape = p.shape ∧
      q.type = p.type ∧ q.isAlive = false := by
  rw [clearUnit_char hp] at h
  injection h with he
  rw [← he]
  dsimp only
  refine ⟨clearSlot p, ?_, rfl, rfl, rfl⟩
  unfold slotAt
  exact List.getElem?_set_eq_of_lt _ (slotAt_lt hp)

/-- C1 (counterexample): the claimed equality between `enemySizeCur` and
the number of alive slots fails: on an initialized capacity-2 pool, one
assignment followed by one `ClearUnit` of the assigned slot leaves zero
alive slots while `enemySizeCur` reads one — `ClearUnit` never decrements
the counter. -/
theorem C1_counterexample :
    ((Initialize (mkPool 2 1)).bind
      (fun m0 => runOps m0 [PoolOp.assign 0 1, PoolOp.clearOne 1])).map
      (fun m => (aliveCount m.enemyList, m.enemySizeCur)) = some (0, 1) ∧
    (0 : Nat) ≠ 1 := by decide

/-- C1 (amended): for every sequence of `AssignEnemyUnit` and `ClearUnit`
calls performed after `Initialize`, the number of slots whose `isAlive`
field is true never exceeds the counter `enemySizeCur` (equality fails
because `ClearUnit` marks the slot dead without decrementing the
counter). -/
theorem C1_theorem (m m0 m2 : EnemyManager) (ops : List PoolOp)
    (hinit : Initialize m = some m0) (hrun : runOps m0 ops = some m2) :
    aliveCount m2.enemyList ≤ m2.enemySizeCur := by
  obtain ⟨h1, h2⟩ := initialize_alive_le hinit
  exact runOps_alive_le ops m0 m2 (by omega) hrun

/-- Witness for C1: the amended bound evaluated on the concrete trace of the
counterexample. -/
theorem C1_witness :
    Initialize (mkPool 2 1) = some fxInit2 ∧
    runOps fxInit2 [PoolOp.assign 0 1, PoolOp.clearOne 1] = some fxTrace2 ∧
    aliveCount fxTrace2.enemyList ≤ fxTrace2.enemySizeCur :=
  ⟨by decide, by decide,
    C1_theorem (mkPool 2 1) fxInit2 fxTrace2
      [PoolOp.assign 0 1, PoolOp.clearOne 1] (by decide) (by decide)⟩

/-- C2 (counterexample): `GetEnemyUnit` does not implement the claim's
FindFree algorithm. On a full capacity-2 pool with cursor 0, the claim's
algorithm (`findFreeSpecC2`, halt recorded as the advanced cursor) ends the
exhausted scan with cursor 1, while the code records halt as the pre-advance
cursor and ends with cursor 0 — so the recorded halt 0 differs from the
advanced cursor 1 the claim prescribes. -/
theorem C2_counterexample :
    (GetEnemyUnit fxPoolFull).1 = ScanOut.exhausted ∧
    findFreeSpecC2 fxPoolFull.enemyList fxPoolFull.iterationIndex = (none, 1) ∧
    (GetEnemyUnit fxPoolFull).2.iterationIndex = 0 ∧
    (GetEnemyUnit fxPoolFull).2.iterationHalt = 0 ∧
    advanceIdx fxPoolFull.enemyList.length fxPoolFull.iterationIndex = 1 ∧
    (0 : Nat) ≠ 1 := by decide

/-- Witness for C2: the amended agreement evaluated on a concrete mixed
pool. -/
theorem C2_witness :
    fxPoolMixed.iterationIndex < fxPoolMixed.enemyList.length ∧
    c2Spec fxPoolMixed :=
  ⟨by decide, C2_theorem fxPoolMixed (by decide)⟩

/-- C3: starting from an initialized pool of capacity `N` in which every
slot is free, `N` consecutive `AssignEnemyUnit` calls of a registered type
each return a slot, and the `(N+1)`-th call returns NONE. -/
theorem C3_theorem (N K t : Nat) (w : Int) (hN : 1 ≤ N) (ht : t < K) :
    ∃ m0 mN r, Initialize (mkPool N K) = some m0 ∧
      runAssigns t w N m0 = some mN ∧
      AssignEnemyUnit mN t w = some r ∧ r.assigned = none := by
  have hocc : ∀ j, j < N →
      ∃ s, slotAt ((List.range' 0 N).map mkSlot) j = some s ∧
        (s.isAlive = true ↔ c3Alive N 0 j) := by
    intro j hj
    refine ⟨mkSlot j, slotAt_map_mkSlot hj, ?_⟩
    constructor
    · intro hx
      have hxf : (mkSlot j).isAlive = false := rfl
      rw [hxf] at hx
      exact Bool.noConfusion hx
    · intro hx
      unfold c3Alive at hx
      rw [if_pos (show 0 < N by omega)] at hx
      omega
  obtain ⟨mN, hrun, hlenN, hidxN, htN, hoccN⟩ :=
    runAssigns_fill N t w (by omega) N 0
      ⟨0, 0, N, 0, 0, (List.range' 0 N).map mkSlot, K⟩
      (by dsimp only; rw [List.length_map, List.length_range'])
      (by dsimp only; exact (Nat.zero_mod N).symm)
      (by dsimp only; exact ht)
      hocc (by omega)
  have hall : ∀ j, j < mN.enemyList.length →
      ∃ s, slotAt mN.enemyList j = some s ∧ s.isAlive = true := by
    intro j hj
    rw [hlenN] at hj
    obtain ⟨s, hs, hiff⟩ := hoccN j hj
    refine ⟨s, hs, hiff.mpr ?_⟩
    unfold c3Alive
    rw [if_neg (show ¬ 0 + N < N by omega)]
    exact True.intro
  have hvalid : mN.iterationIndex < mN.enemyList.length := by
    rw [hidxN, hlenN]
    exact Nat.mod_lt _ (by omega)
  have hex := getEnemyUnit_all_alive hvalid hall
  exact ⟨⟨0, 0, N, 0, 0, (List.range' 0 N).map mkSlot, K⟩, mN,
    ⟨none, 0, 0, (GetEnemyUnit mN).2⟩,
    initialize_mkPool N K, hrun, assign_of_exhausted t w hex, rfl⟩

/-- Witness for C3: capacity 2, one registered model — two assignments
succeed and the third returns NONE. -/
theorem C3_witness :
    1 ≤ 2 ∧ 0 < 1 ∧
    (∃ m0 mN r, Initialize (mkPool 2 1) = some m0 ∧
      runAssigns 0 1 2 m0 = some mN ∧
      AssignEnemyUnit mN 0 1 = some r ∧ r.assigned = none) :=
  ⟨by decide, by decide, C3_theorem 2 1 0 1 (by decide) (by decide)⟩

/-- C4: whenever `GetEnemyUnit` returns a slot, that slot's `isAlive` field
is false at the moment of return; and it returns the index the cursor
already rests on — the index the previous successful call returned — only
when every other slot is alive. -/
theorem C4_theorem (m : EnemyManager) (i : Nat)
    (hvalid : m.iterationIndex < m.enemyList.length)
    (h : (GetEnemyUnit m).1 = ScanOut.found i) :
    (∃ s, slotAt m.enemyList i = some s ∧ s.isAlive = false) ∧
    (i = m.iterationIndex →
      ∀ j, j < m.enemyList.length → j ≠ i →
        ∃ s, slotAt m.enemyList j = some s ∧ s.isAlive = true) :=
  ⟨(getEnemyUnit_found h).2, fun hself => getEnemyUnit_found_self hvalid h hself⟩

/-- Witness for C4: a mixed capacity-2 pool whose cursor already rests on
the single free slot 0 — the call returns slot 0 again and the other slot
is indeed alive. -/
theorem C4_witness :
    fxPoolMixed.iterationIndex < fxPoolMixed.enemyList.length ∧
    (GetEnemyUnit fxPoolMixed).1 = ScanOut.found 0 ∧
    ((∃ s, slotAt fxPoolMixed.enemyList 0 = some s ∧ s.isAlive = false) ∧
     (0 = fxPoolMixed.iterationIndex →
       ∀ j, j < fxPoolMixed.enemyList.length → j ≠ 0 →
         ∃ s, slotAt fxPoolMixed.enemyList j = some s ∧ s.isAlive = true)) :=
  ⟨by decide, by decide, C4_theorem fxPoolMixed 0 (by decide) (by decide)⟩

/-- C5: reassigning a slot with the type it last held performs no resource
detach and no attach, while reassigning it with a different type performs
exactly one detach and one attach: along any chain Assign(A, w1) →
ClearUnit → Assign(A, w2) → ClearUnit → Assign(B, w3) in which every
assignment reuses the same slot `i` and `A ≠ B`, the second assignment
detaches and attaches nothing and the third detaches exactly once and
attaches exactly once. -/
theorem C5_theorem (m : EnemyManager) (A B : Nat) (w1 w2 w3 : Int) (i : Nat)
    (m2 m3 : EnemyManager) (r1 r2 r3 : AssignResult)
    (hAB : A ≠ B)
    (h1 : AssignEnemyUnit m A w1 = some r1) (ha1 : r1.assigned = some i)
    (h2 : ClearUnit r1.state i = some m2)
    (h3 : AssignEnemyUnit m2 A w2 = some r2) (ha2 : r2.assigned = some i)
    (h4 : ClearUnit r2.state i = some m3)
    (h5 : AssignEnemyUnit m3 B w3 = some r3) (ha3 : r3.assigned = some i) :
    r2.detached = 0 ∧ r2.attached = 0 ∧
    r3.detached = 1 ∧ r3.attached = 1 := by
  obtain ⟨p1, hp1, hp1s, hp1t⟩ := assign_slot_after h1 ha1
  obtain ⟨q1, hq1, hq1s, hq1t, -⟩ := clear_slot_after hp1 h2
  obtain ⟨-, s2, hs2, -, hd2, ht2, -⟩ := assign_some_char h3 ha2
  have hs2q : s2 = q1 := by
    rw [hq1] at hs2
    injection hs2 with he
    exact he.symm
  subst hs2q
  have hq1some : s2.shape.isSome = true := by rw [hq1s]; exact hp1s
  have hq1A : s2.type = A := by rw [hq1t]; exact hp1t
  obtain ⟨p2, hp2, hp2s, hp2t⟩ := assign_slot_after h3 ha2
  obtain ⟨q2, hq2, hq2s, hq2t, -⟩ := clear_slot_after hp2 h4
  obtain ⟨-, s3, hs3, -, hd3, ht3, -⟩ := assign_some_char h5 ha3
  have hs3q : s3 = q2 := by
    rw [hq2] at hs3
    injection hs3 with he
    exact he.symm
  subst hs3q
  have hq2some : s3.shape.isSome = true := by rw [hq2s]; exact hp2s
  have hq2A : s3.type = A := by rw [hq2t]; exact hp2t
  refine ⟨?_, ?_, ?_, ?_⟩
  · rw [hd2, if_neg (fun hc => hc.2 hq1A)]
  · rw [ht2, if_pos ⟨hq1some, hq1A⟩]
  · rw [hd3, if_pos ⟨hq2some, fun hc => hAB (by rw [← hq2A]; exact hc)⟩]
  · rw [ht3, if_neg (fun hc => hAB (by rw [← hq2A]; exact hc.2))]

/-- Witness for C5: the full chain run on a concrete capacity-1 pool with
two registered models, types 0 and 1. -/
theorem C5_witness :
    (0 : Nat) ≠ 1 ∧
    AssignEnemyUnit fxC5Pool 0 1 = some fxC5R1 ∧
    fxC5R1.assigned = some 0 ∧
    ClearUnit fxC5R1.state 0 = some fxC5M2 ∧
    AssignEnemyUnit fxC5M2 0 2 = some fxC5R2 ∧
    fxC5R2.assigned = some 0 ∧
    ClearUnit fxC5R2.state 0 = some fxC5M4 ∧
    AssignEnemyUnit fxC5M4 1 3 = some fxC5R3 ∧
    fxC5R3.assigned = some 0 ∧
    (fxC5R2.detached = 0 ∧ fxC5R2.attached = 0 ∧
     fxC5R3.detached = 1 ∧ fxC5R3.attached = 1) :=
  ⟨by decide, by decide, by decide, by decide, by decide, by decide,
    by decide, by decide, by decide,
    C5_theorem fxC5Pool 0 1 1 2 3 0 fxC5M2 fxC5M4 fxC5R1 fxC5R2 fxC5R3
      (by decide) (by decide) (by decide) (by decide) (by decide) (by decide)
      (by decide) (by decide) (by decide)⟩

/-- C6 (counterexample): calling `Initialize` twice does NOT double-allocate:
on a capacity-2 pool the second call leaves two slots, not `2 × 2`. -/
theorem C6_counterexample :
    ((Initialize (mkPool 2 1)).bind Initialize).map
      (fun m => m.enemyList.length) = some 2 ∧ (2 : Nat) ≠ 2 * 2 := by decide

/-- C6 (amended): `Initialize` is idempotent — the pre-warm loop runs only
while the pool is below `enemySizeMax`, so a second call adds no slots and
changes nothing; after the first call the pool holds its original slots
plus the shortfall to `enemySizeMax`. -/
theorem C6_theorem (m m1 : EnemyManager) (h : Initialize m = some m1) :
    Initialize m1 = some m1 ∧
    m1.enemyList.length =
      m.enemyList.length + (m.enemySizeMax - m.enemyList.length) := by
  refine ⟨initialize_idem h, ?_⟩
  rw [initialize_char] at h
  injection h with h1
  rw [← h1]
  dsimp only
  rw [List.length_map, List.length_append, List.length_map, List.length_range']

/-- Witness for C6: the idempotence evaluated on the concrete capacity-2
pool. -/
theorem C6_witness :
    Initialize (mkPool 2 1) = some fxInit2 ∧
    (Initialize fxInit2 = some fxInit2 ∧
      fxInit2.enemyList.length =
        (mkPool 2 1).enemyList.length +
          ((mkPool 2 1).enemySizeMax - (mkPool 2 1).enemyList.length)) :=
  ⟨by decide, C6_theorem (mkPool 2 1) fxInit2 (by decide)⟩

/-- C7 (counterexample): on a pool with zero slots, `GetEnemyUnit` does not
return NONE (the exhausted outcome): the slot lookup inside the scan runs on
the empty slot list and fails out of bounds. -/
theorem C7_counterexample :
    (GetEnemyUnit (mkPool 30 1)).1 = ScanOut.oob ∧
    (GetEnemyUnit (mkPool 30 1)).1 ≠ ScanOut.exhausted := by decide

/-- C7 (amended): when the pool contains zero slots — `GetEnemyUnit` called
before any slot has been created — there is no `capacity == 0` guard: the
scan immediately performs a slot lookup on the empty slot list, which
fails out of bounds instead of returning NONE. -/
theorem C7_theorem (m : EnemyManager) (h : m.enemyList = []) :
    (GetEnemyUnit m).1 = ScanOut.oob := by
  have hs : slotAt m.enemyList
      (advanceIdx m.enemyList.length m.iterationIndex) = none := by
    unfold slotAt
    exact List.getElem?_eq_none (by rw [h]; exact Nat.zero_le _)
  rw [getEnemyUnit_fst, scanLoop_none hs]

/-- Witness for C7: the failed lookup on the concrete empty pool. -/
theorem C7_witness :
    (mkPool 30 1).enemyList = [] ∧
    (GetEnemyUnit (mkPool 30 1)).1 = ScanOut.oob :=
  ⟨rfl, C7_theorem (mkPool 30 1) rfl⟩

/-- C8: for every valid index, `ClearUnit` marks exactly that slot dead and
out of the engine and changes nothing else: the slot keeps its type, wave,
shape and damage record (the whole slot apart from `isAlive` and the engine
flag), every other slot is untouched, and every manager field — the
free-slot cursor and halt marker included — is unchanged. -/
theorem C8_theorem (m : EnemyManager) (i : Nat) (s : EnemyUnitObject)
    (hs : slotAt m.enemyList i = some s) :
    ∃ m2, ClearUnit m i = some m2 ∧
      slotAt m2.enemyList i = some { s with isAlive := false, engine := false } ∧
      (∀ j, j ≠ i → slotAt m2.enemyList j = slotAt m.enemyList j) ∧
      m2.iterationIndex = m.iterationIndex ∧
      m2.iterationHalt = m.iterationHalt ∧
      m2.enemySizeMax = m.enemySizeMax ∧
      m2.enemySizeCur = m.enemySizeCur ∧
      m2.enemySizeRemaining = m.enemySizeRemaining ∧
      m2.modelCount = m.modelCount := by
  refine ⟨{ m with enemyList := m.enemyList.set i (clearSlot s) },
    clearUnit_char hs, ?_, ?_, rfl, rfl, rfl, rfl, rfl, rfl⟩
  · dsimp only
    unfold slotAt
    exact List.getElem?_set_eq_of_lt _ (slotAt_lt hs)
  · intro j hj
    dsimp only
    unfold slotAt
    rw [List.getElem?_set_ne (fun he => hj he.symm)]

/-- Witness for C8: clearing the alive slot 1 of the concrete mixed pool. -/
theorem C8_witness :
    slotAt fxPoolMixed.enemyList 1 = some (fxAlive 1) ∧
    (∃ m2, ClearUnit fxPoolMixed 1 = some m2 ∧
      slotAt m2.enemyList 1 =
        some { fxAlive 1 with isAlive := false, engine := false } ∧
      (∀ j, j ≠ 1 → slotAt m2.enemyList j = slotAt fxPoolMixed.enemyList j) ∧
      m2.iterationIndex = fxPoolMixed.iterationIndex ∧
      m2.iterationHalt = fxPoolMixed.iterationHalt ∧
      m2.enemySizeMax = fxPoolMixed.enemySizeMax ∧
      m2.enemySizeCur = fxPoolMixed.enemySizeCur ∧
      m2.enemySizeRemaining = fxPoolMixed.enemySizeRemaining ∧
      m2.modelCount = fxPoolMixed.modelCount) :=
  ⟨by decide, C8_theorem fxPoolMixed 1 (fxAlive 1) (by decide)⟩

/-- C9: `DamageUnit` forwards the damage amount to exactly the slot
registered under the given index — appending it to that slot's forwarded
damage record and touching nothing else — and fails (returns no state) when
the index does not name a previously created slot; it never silently
succeeds or damages a different slot. -/
theorem C9_theorem (m : EnemyManager) (i : Nat) (d : Int) :
    (∀ s, slotAt m.enemyList i = some s →
      DamageUnit m i d = some { m with
        enemyList := m.enemyList.set i { s with damages := s.damages ++ [d] } }) ∧
    (m.enemyList.length ≤ i → DamageUnit m i d = none) :=
  ⟨fun _ hs => damageUnit_char hs, fun hge => damageUnit_oob hge⟩

/-- Witness for C9: damage 5 forwarded to slot 0 of the concrete mixed
pool, and the failure at the out-of-range index 2. -/
theorem C9_witness :
    DamageUnit fxPoolMixed 0 5 = some { fxPoolMixed with
      enemyList := fxPoolMixed.enemyList.set 0
        { fxDead 0 with damages := (fxDead 0).damages ++ [5] } } ∧
    DamageUnit fxPoolMixed 2 5 = none :=
  ⟨(C9_theorem fxPoolMixed 0 5).1 (fxDead 0) (by decide),
    (C9_theorem fxPoolMixed 2 5).2 (by decide)⟩

/-- C10: calling `AssignEnemyUnit` on an exhausted pool — every slot alive —
returns NONE and leaves the whole state unchanged apart from the halt
marker, which is set to the entry cursor: the slot list (hence every slot's
`isAlive`, type and wave), `enemySizeCur`, and even the cursor itself are
exactly as before the call. -/
theorem C10_theorem (m : EnemyManager) (t : Nat) (w : Int)
    (hvalid : m.iterationIndex < m.enemyList.length)
    (hall : ∀ j, j < m.enemyList.length → isFreeAt m.enemyList j = false) :
    AssignEnemyUnit m t w =
      some ⟨none, 0, 0, { m with iterationHalt := m.iterationIndex }⟩ := by
  have hall2 : ∀ j, j < m.enemyList.length →
      ∃ s, slotAt m.enemyList j = some s ∧ s.isAlive = true := by
    intro j hj
    refine ⟨m.enemyList[j], slotAt_eq hj, ?_⟩
    have hf := hall j hj
    unfold isFreeAt at hf
    have hsome : m.enemyList[j]? = some m.enemyList[j] := slotAt_eq hj
    rw [hsome] at hf
    dsimp only at hf
    cases hb : m.enemyList[j].isAlive with
    | true => rfl
    | false =>
      rw [hb] at hf
      exact absurd hf (by decide)
  have hex := getEnemyUnit_all_alive hvalid hall2
  obtain ⟨hidx, -⟩ := getEnemyUnit_exhausted hvalid hex
  have h2 : (GetEnemyUnit m).2 = { m with iterationHalt := m.iterationIndex } := by
    rw [getEnemyUnit_snd]
    have hsc : (scanLoop m.enemyList m.iterationIndex m.enemyList.length
        (advanceIdx m.enemyList.length m.iterationIndex)).2 =
        m.iterationIndex := hidx
    rw [hsc]
  rw [← h2]
  exact assign_of_exhausted t w hex

/-- Witness for C10: the failed assignment on the concrete full pool. -/
theorem C10_witness :
    fxPoolFull.iterationIndex < fxPoolFull.enemyList.length ∧
    AssignEnemyUnit fxPoolFull 0 7 =
      some ⟨none, 0, 0,
        { fxPoolFull with iterationHalt := fxPoolFull.iterationIndex }⟩ :=
  ⟨by decide, C10_theorem fxPoolFull 0 7 (by decide) (by decide)⟩
